import Mathlib

/-!
# Verification of the intune-macos-tools assignment workflow

Shallow embedding of the group/app bulk-assignment core of the
repository `intune-macos-tools`:

* `AppManager.assign_app_to_group` and `AppManager.bulk_assign_apps`
  (`src/intune_tools/modules/app_manager.py`),
* the selection-model and apply-loop pieces of
  `GroupFirstAssignmentScreen` (`intune_tools.py`):
  `toggle_group_selection`, `update_summary`, `select_all_groups`,
  `clear_groups`, `apply_assignments`.

The remote Graph client is modelled as an oracle (`GraphClient`) whose
two operations return `Except String _`: an `Except.error e` models the
Python call raising an exception with message `e`.  Every remote call the
embedded code performs is additionally recorded in an explicit trace of
`RemoteCall` values so that claims about which network calls happen can
be stated and proved.
-/

/-- The target of an existing app assignment, as produced by
`GraphClient.get_app_assignments`: `assignment['target'].get('groupId')`
may be absent, hence `Option`. -/
structure AssignmentTarget where
  groupId : Option String
deriving DecidableEq, Repr

/-- An existing app assignment as returned by the Graph client: a parsed
dictionary carrying `intent` and `target` (the `id` and `settings` keys
play no role in the assignment workflow and are omitted). -/
structure AppAssignment where
  intent : String
  target : AssignmentTarget
deriving DecidableEq, Repr

/-- One remote call made by the assignment workflow: either listing the
existing assignments of an app (`client.get_app_assignments`) or creating
an assignment (`client.create_app_assignment`). -/
inductive RemoteCall where
  | listAssignments (app_id : String)
  | createAssignment (app_id : String) (group_id : String) (intent : String)
      (notifications : String) (restart_required : Bool)
deriving DecidableEq, Repr

/-- Holds exactly on existing-assignment-listing calls. -/
def RemoteCall.isListing : RemoteCall → Bool
  | .listAssignments _ => true
  | .createAssignment _ _ _ _ _ => false

/-- The remote Graph client, modelled as an oracle.  `Except.error e`
models the corresponding Python coroutine raising an exception whose
string form is `e`. -/
structure GraphClient where
  get_app_assignments : String → Except String (List AppAssignment)
  create_app_assignment : String → String → String → String → String → Bool →
    Except String Bool

/-- The `create_app_assignment` call of `assign_app_to_group`, together
with its trace entry.  The notification setting is derived exactly as in
the source: `"showAll" if notify else "hideAll"`; the target type is the
literal `"group"`. -/
def create_step (client : GraphClient) (app_id group_id intent : String)
    (notify restart_required : Bool) : Except String Bool × List RemoteCall :=
  let notifications := if notify then "showAll" else "hideAll"
  (client.create_app_assignment app_id "group" group_id intent notifications
      restart_required,
    [RemoteCall.createAssignment app_id group_id intent notifications
      restart_required])

/-- Embedding of `AppManager.assign_app_to_group`.  When `override_existing` is false
the existing assignments of `app_id` are fetched first and the call
returns `true` without creating anything as soon as one of them has a
target whose `groupId` equals `group_id`; a fetch failure propagates
(the source `except` clause logs and re-raises).  Otherwise one create
call is issued and its outcome returned. -/
def assign_app_to_group (client : GraphClient) (app_id group_id : String)
    (intent : String) (notify : Bool) (restart_required : Bool)
    (override_existing : Bool) : Except String Bool × List RemoteCall :=
  if override_existing then
    create_step client app_id group_id intent notify restart_required
  else
    match client.get_app_assignments app_id with
    | .error e => (.error e, [RemoteCall.listAssignments app_id])
    | .ok existing =>
      if existing.any (fun assignment => assignment.target.groupId == some group_id) then
        (.ok true, [RemoteCall.listAssignments app_id])
      else
        let step := create_step client app_id group_id intent notify restart_required
        (step.1, RemoteCall.listAssignments app_id :: step.2)

/-- One entry of the `errors` list built by `bulk_assign_apps`. -/
structure BulkError where
  app_id : String
  group_id : String
  error : String
deriving DecidableEq, Repr

/-- The result dictionary of `bulk_assign_apps`. -/
structure BulkResults where
  total : Nat
  success : Nat
  failed : Nat
  errors : List BulkError
deriving DecidableEq, Repr

/-- The observable behaviour of one `bulk_assign_apps` run: its result
dictionary, the ordered list of (app, group) pairs on which
`assign_app_to_group` was invoked, and the full remote-call trace. -/
structure BulkRun where
  result : BulkResults
  attempts : List (String × String)
  calls : List RemoteCall
deriving DecidableEq, Repr

/-- The body of the nested loop of `bulk_assign_apps`: attempt one
(app, group) pair, then either bump `success` or bump `failed` and
append the error entry. -/
def bulkStep (client : GraphClient) (intent : String)
    (notify restart_required override_existing : Bool)
    (st : BulkRun) (app_id group_id : String) : BulkRun :=
  let step := assign_app_to_group client app_id group_id intent notify
    restart_required override_existing
  match step.1 with
  | .ok _ =>
    { st with
      result := { st.result with success := st.result.success + 1 },
      attempts := st.attempts ++ [(app_id, group_id)],
      calls := st.calls ++ step.2 }
  | .error e =>
    { st with
      result := { st.result with
        failed := st.result.failed + 1,
        errors := st.result.errors ++
          [{ app_id := app_id, group_id := group_id, error := e }] },
      attempts := st.attempts ++ [(app_id, group_id)],
      calls := st.calls ++ step.2 }

/-- Embedding of `AppManager.bulk_assign_apps`: `total` is fixed up front as
`len(app_ids) * len(group_ids)`, then the nested loop
`for app_id in app_ids: for group_id in group_ids:` runs `bulkStep` on
every pair. -/
def bulk_assign_apps (client : GraphClient) (app_ids group_ids : List String)
    (intent : String) (notify restart_required override_existing : Bool) :
    BulkRun :=
  let init : BulkRun :=
    { result := { total := app_ids.length * group_ids.length, success := 0,
                  failed := 0, errors := [] },
      attempts := [], calls := [] }
  app_ids.foldl
    (fun st app_id =>
      group_ids.foldl
        (fun st group_id =>
          bulkStep client intent notify restart_required override_existing
            st app_id group_id)
        st)
    init

/-- The cross-product of pairs in the order the nested loops of
`bulk_assign_apps` visit them. -/
def crossPairs (app_ids group_ids : List String) : List (String × String) :=
  app_ids.flatMap (fun app_id => group_ids.map (fun group_id => (app_id, group_id)))

/-- The outcome `assign_app_to_group` produces on one pair. -/
def pairOutcome (client : GraphClient) (intent : String)
    (notify restart_required override_existing : Bool)
    (p : String × String) : Except String Bool :=
  (assign_app_to_group client p.1 p.2 intent notify restart_required
    override_existing).1

/-- The remote calls `assign_app_to_group` issues on one pair. -/
def pairCalls (client : GraphClient) (intent : String)
    (notify restart_required override_existing : Bool)
    (p : String × String) : List RemoteCall :=
  (assign_app_to_group client p.1 p.2 intent notify restart_required
    override_existing).2

/-- Whether one pair's attempt succeeds. -/
def pairOk (client : GraphClient) (intent : String)
    (notify restart_required override_existing : Bool)
    (p : String × String) : Bool :=
  match pairOutcome client intent notify restart_required override_existing p with
  | .ok _ => true
  | .error _ => false

/-- The error entry, if any, one pair's attempt contributes to the
`errors` list of `bulk_assign_apps`. -/
def pairError (client : GraphClient) (intent : String)
    (notify restart_required override_existing : Bool)
    (p : String × String) : Option BulkError :=
  match pairOutcome client intent notify restart_required override_existing p with
  | .error e => some { app_id := p.1, group_id := p.2, error := e }
  | .ok _ => none

/-- Text of the source's nested `for app_id in app_ids: for group_id in
group_ids:` loop as a single fold over the cross-product pair list. -/
theorem foldl_cross {σ : Type} (step : σ → String → String → σ) :
    ∀ (app_ids group_ids : List String) (st : σ),
      app_ids.foldl
        (fun st app_id =>
          group_ids.foldl (fun st group_id => step st app_id group_id) st) st
      = (crossPairs app_ids group_ids).foldl (fun st p => step st p.1 p.2) st := by
  intro app_ids
  induction app_ids with
  | nil => intro group_ids st; rfl
  | cons a rest ih =>
    intro group_ids st
    simp only [List.foldl_cons, crossPairs, List.flatMap_cons, List.foldl_append,
      List.foldl_map]
    exact ih group_ids _

/-- Closed form of folding `bulkStep` over an arbitrary pair list:
`total` is untouched, `success`/`failed` count the pairs by outcome,
`errors` collects the per-pair error entries in order, `attempts` appends
the pairs and `calls` appends each pair's remote calls. -/
theorem pairs_foldl_spec (client : GraphClient) (intent : String)
    (notify restart_required override_existing : Bool) :
    ∀ (pairs : List (String × String)) (st : BulkRun),
      pairs.foldl
        (fun st p =>
          bulkStep client intent notify restart_required override_existing
            st p.1 p.2) st
      = { result :=
            { total := st.result.total,
              success := st.result.success +
                pairs.countP
                  (pairOk client intent notify restart_required override_existing),
              failed := st.result.failed +
                pairs.countP (fun p =>
                  !(pairOk client intent notify restart_required
                    override_existing p)),
              errors := st.result.errors ++
                pairs.filterMap
                  (pairError client intent notify restart_required
                    override_existing) },
          attempts := st.attempts ++ pairs,
          calls := st.calls ++
            pairs.flatMap
              (pairCalls client intent notify restart_required
                override_existing) } := by
  intro pairs
  induction pairs with
  | nil => intro st; simp
  | cons p rest ih =>
    intro st
    rw [List.foldl_cons, ih]
    have hstep :
        bulkStep client intent notify restart_required override_existing
          st p.1 p.2
        = match pairOutcome client intent notify restart_required
            override_existing p with
          | .ok _ =>
            { st with
              result := { st.result with success := st.result.success + 1 },
              attempts := st.attempts ++ [p],
              calls := st.calls ++
                pairCalls client intent notify restart_required
                  override_existing p }
          | .error e =>
            { st with
              result := { st.result with
                failed := st.result.failed + 1,
                errors := st.result.errors ++
                  [{ app_id := p.1, group_id := p.2, error := e }] },
              attempts := st.attempts ++ [p],
              calls := st.calls ++
                pairCalls client intent notify restart_required
                  override_existing p } := by
      simp only [bulkStep, pairOutcome, pairCalls]
    rw [hstep]
    cases h : pairOutcome client intent notify restart_required
        override_existing p with
    | ok v =>
      have hok : pairOk client intent notify restart_required
          override_existing p = true := by
        simp [pairOk, h]
      have herr : pairError client intent notify restart_required
          override_existing p = none := by
        simp [pairError, h]
      simp only [List.countP_cons, List.filterMap_cons, hok, herr,
        List.flatMap_cons, Bool.not_true, if_true, if_false]
      simp [List.append_assoc]
      omega
    | error e =>
      have hok : pairOk client intent notify restart_required
          override_existing p = false := by
        simp [pairOk, h]
      have herr : pairError client intent notify restart_required
          override_existing p
          = some { app_id := p.1, group_id := p.2, error := e } := by
        simp [pairError, h]
      simp only [List.countP_cons, List.filterMap_cons, hok, herr,
        List.flatMap_cons, Bool.not_false, if_true, if_false]
      simp [List.append_assoc]
      omega

/-- Closed form of `bulk_assign_apps`. -/
theorem bulk_spec (client : GraphClient) (app_ids group_ids : List String)
    (intent : String) (notify restart_required override_existing : Bool) :
    bulk_assign_apps client app_ids group_ids intent notify restart_required
      override_existing
    = { result :=
          { total := app_ids.length * group_ids.length,
            success := (crossPairs app_ids group_ids).countP
              (pairOk client intent notify restart_required override_existing),
            failed := (crossPairs app_ids group_ids).countP (fun p =>
              !(pairOk client intent notify restart_required
                override_existing p)),
            errors := (crossPairs app_ids group_ids).filterMap
              (pairError client intent notify restart_required
                override_existing) },
        attempts := crossPairs app_ids group_ids,
        calls := (crossPairs app_ids group_ids).flatMap
          (pairCalls client intent notify restart_required
            override_existing) } := by
  unfold bulk_assign_apps
  rw [foldl_cross, pairs_foldl_spec]
  simp

/-- Embedding of `GroupFirstAssignmentScreen.toggle_group_selection` acting on the
`selected_groups` set (`intune_tools.py`): remove the id if present,
insert it otherwise.  The card's visual refresh has no effect on the
selection state and is not modelled. -/
def toggle_group_selection (selected_groups : Finset String)
    (group_id : String) : Finset String :=
  if group_id ∈ selected_groups then selected_groups.erase group_id
  else insert group_id selected_groups

/-- The assignment count displayed by
`GroupFirstAssignmentScreen.update_summary`:
`len(self.selected_groups) * len(self.selected_apps)`. -/
def update_summary_count (selected_groups selected_apps : Finset String) : Nat :=
  selected_groups.card * selected_apps.card

/-- A group card of the selection screen, as far as
`select_all_groups` reads it: the group's id and whether the card is
currently displayed (not filtered out by the search box). -/
structure GroupCard where
  id : String
  display : Bool
deriving DecidableEq, Repr

/-- Embedding of `GroupFirstAssignmentScreen.select_all_groups`: for every displayed
card, add its group id to the selected set.  Nothing is removed from the
set first. -/
def select_all_groups (selected_groups : Finset String)
    (cards : List GroupCard) : Finset String :=
  cards.foldl
    (fun s card => if card.display then insert card.id s else s)
    selected_groups

/-- Embedding of `GroupFirstAssignmentScreen.clear_groups`:
`self.selected_groups.clear()`. -/
def clear_groups (_selected_groups : Finset String) : Finset String := ∅

/-- Outcome of one `apply_assignments` invocation: either the empty
selection guard fired (an error notification is shown and the method
returns), or the loop ran to completion with the given success and error
counts. -/
inductive ApplyOutcome where
  | validationError : ApplyOutcome
  | completed (success_count : Nat) (error_count : Nat) : ApplyOutcome
deriving DecidableEq, Repr

/-- Accumulator of the `apply_assignments` loop. -/
structure ApplyState where
  success_count : Nat
  error_count : Nat
  calls : List RemoteCall
deriving DecidableEq, Repr

/-- Embedding of `GroupFirstAssignmentScreen.apply_assignments` (`intune_tools.py`):
if either selection is empty, notify an error and return before any
remote call; otherwise run
`for group_id in selected_groups: for app_id in selected_apps:` with a
per-pair try/except around `assign_app_to_group`, counting successes and
errors. -/
def apply_assignments (client : GraphClient)
    (selected_groups selected_apps : List String) (intent : String)
    (notify restart override : Bool) : ApplyOutcome × List RemoteCall :=
  if selected_groups.isEmpty || selected_apps.isEmpty then
    (ApplyOutcome.validationError, [])
  else
    let final := selected_groups.foldl
      (fun st group_id =>
        selected_apps.foldl
          (fun (st : ApplyState) app_id =>
            let step := assign_app_to_group client app_id group_id intent
              notify restart override
            match step.1 with
            | .ok _ =>
              { st with success_count := st.success_count + 1,
                        calls := st.calls ++ step.2 }
            | .error _ =>
              { st with error_count := st.error_count + 1,
                        calls := st.calls ++ step.2 })
          st)
      { success_count := 0, error_count := 0, calls := [] }
    (ApplyOutcome.completed final.success_count final.error_count, final.calls)

theorem crossPairs_length (app_ids group_ids : List String) :
    (crossPairs app_ids group_ids).length
      = app_ids.length * group_ids.length := by
  induction app_ids with
  | nil => simp [crossPairs]
  | cons a rest ih =>
    simp only [crossPairs, List.flatMap_cons, List.length_append,
      List.length_map, List.length_cons] at *
    rw [ih]
    ring

theorem countP_bool_split {α : Type} (p : α → Bool) (l : List α) :
    l.countP p + l.countP (fun a => !p a) = l.length := by
  induction l with
  | nil => rfl
  | cons a rest ih =>
    by_cases h : p a = true <;> simp [List.countP_cons, h] <;> omega

theorem count_pair_map (a' a g : String) (group_ids : List String) :
    ((group_ids.map (fun g' => (a', g'))).count (a, g))
      = if a' = a then group_ids.count g else 0 := by
  induction group_ids with
  | nil => simp
  | cons g' rest ih =>
    simp only [List.map_cons, List.count_cons, ih, beq_iff_eq, Prod.mk.injEq]
    by_cases h1 : a' = a
    · by_cases h2 : g' = g <;> simp [h1, h2]
    · simp [h1]

theorem crossPairs_count (app_ids group_ids : List String) (a g : String) :
    (crossPairs app_ids group_ids).count (a, g)
      = app_ids.count a * group_ids.count g := by
  induction app_ids with
  | nil => simp [crossPairs]
  | cons a' rest ih =>
    simp only [crossPairs, List.flatMap_cons, List.count_append,
      List.count_cons] at *
    rw [ih, count_pair_map]
    by_cases h : a' = a
    · simp [h]
      ring
    · simp [h]

/-- C1: for every list of app ids and group ids and any options and any
behaviour of the remote client, `bulk_assign_apps` returns a result whose
`total` is `len(app_ids) * len(group_ids)` and whose `success + failed`
equals that `total`: no pair is dropped or double-counted. -/
theorem bulk_assign_apps_completeness (client : GraphClient)
    (app_ids group_ids : List String) (intent : String)
    (notify restart_required override_existing : Bool) :
    (bulk_assign_apps client app_ids group_ids intent notify restart_required
        override_existing).result.total
      = app_ids.length * group_ids.length ∧
    (bulk_assign_apps client app_ids group_ids intent notify restart_required
        override_existing).result.success +
      (bulk_assign_apps client app_ids group_ids intent notify restart_required
        override_existing).result.failed
      = (bulk_assign_apps client app_ids group_ids intent notify
          restart_required override_existing).result.total := by
  rw [bulk_spec]
  refine ⟨rfl, ?_⟩
  show (crossPairs app_ids group_ids).countP _ +
      (crossPairs app_ids group_ids).countP _ = _
  rw [countP_bool_split, crossPairs_length]

/-- C2: during `bulk_assign_apps`, every pair of the cross-product is
attempted exactly once in loop order regardless of prior outcomes, and
the `errors` list is exactly the per-pair captured failures (one entry
per failing pair, with its message); no failure escapes the batch — the
function is total and returns a plain result. -/
theorem bulk_assign_apps_failure_isolation (client : GraphClient)
    (app_ids group_ids : List String) (intent : String)
    (notify restart_required override_existing : Bool) :
    (bulk_assign_apps client app_ids group_ids intent notify restart_required
        override_existing).attempts
      = crossPairs app_ids group_ids ∧
    (bulk_assign_apps client app_ids group_ids intent notify restart_required
        override_existing).result.errors
      = (crossPairs app_ids group_ids).filterMap
          (pairError client intent notify restart_required
            override_existing) := by
  rw [bulk_spec]
  exact ⟨rfl, rfl⟩

/-- C10: `bulk_assign_apps` does not deduplicate its inputs: the pair
`(a, g)` is attempted once per occurrence combination — its multiplicity
in the attempt list is `count a app_ids * count g group_ids` — and
`total` likewise counts list lengths, multiplicities included. -/
theorem bulk_assign_apps_no_dedup (client : GraphClient)
    (app_ids group_ids : List String) (intent : String)
    (notify restart_required override_existing : Bool) (a g : String) :
    (bulk_assign_apps client app_ids group_ids intent notify restart_required
        override_existing).attempts.count (a, g)
      = app_ids.count a * group_ids.count g ∧
    (bulk_assign_apps client app_ids group_ids intent notify restart_required
        override_existing).result.total
      = app_ids.length * group_ids.length := by
  rw [bulk_spec]
  exact ⟨crossPairs_count app_ids group_ids a g, rfl⟩

/-- C3: with `override_existing = false`, as soon as some existing
assignment of the app has a target whose `groupId` equals the requested
group id, `assign_app_to_group` returns success without issuing any
create call — only the listing call appears in the trace.  The statement
quantifies over the request intent and over arbitrary existing
assignments (any intents), so the dedup check provably ignores intent:
the condition mentions only `groupId`. -/
theorem assign_dedup_ignores_intent (client : GraphClient)
    (app_id group_id intent : String) (notify restart_required : Bool)
    (existing : List AppAssignment)
    (hfetch : client.get_app_assignments app_id = .ok existing)
    (hmatch : (existing.any
        (fun assignment => assignment.target.groupId == some group_id))
      = true) :
    assign_app_to_group client app_id group_id intent notify restart_required
        false
      = (.ok true, [RemoteCall.listAssignments app_id]) := by
  simp [assign_app_to_group, hfetch, hmatch]

/-- A client whose app `"A1"` already carries a `required` assignment to
group `"G1"`, used to witness the dedup claims at concrete inputs. -/
def dedupClient : GraphClient where
  get_app_assignments := fun _ =>
    .ok [{ intent := "required", target := { groupId := some "G1" } }]
  create_app_assignment := fun _ _ _ _ _ _ => .ok true

/-- Witness for C3: a pair already assigned with intent `required` is
skipped and reported successful even though the new request asks for
`uninstall`. -/
theorem assign_dedup_ignores_intent_witness :
    assign_app_to_group dedupClient "A1" "G1" "uninstall" true false false
      = (.ok true, [RemoteCall.listAssignments "A1"]) :=
  assign_dedup_ignores_intent dedupClient "A1" "G1" "uninstall" true false
    [{ intent := "required", target := { groupId := some "G1" } }]
    rfl (by decide)

theorem pairCalls_listing_count (client : GraphClient) (intent : String)
    (notify restart_required : Bool) (p : String × String) :
    ((pairCalls client intent notify restart_required true p).countP
        RemoteCall.isListing = 0) ∧
    ((pairCalls client intent notify restart_required false p).countP
        RemoteCall.isListing = 1) := by
  constructor
  · simp [pairCalls, assign_app_to_group, create_step, RemoteCall.isListing]
  · simp only [pairCalls, assign_app_to_group, Bool.false_eq_true, if_false]
    cases h : client.get_app_assignments p.1 with
    | error e => simp [RemoteCall.isListing]
    | ok existing =>
      by_cases hmatch : (existing.any
          (fun assignment => assignment.target.groupId == some p.2)) = true <;>
        simp [hmatch, create_step, RemoteCall.isListing]

theorem countP_flatMap_const {α β : Type} (f : α → List β) (q : β → Bool)
    (k : Nat) (h : ∀ x, (f x).countP q = k) :
    ∀ l : List α, (l.flatMap f).countP q = k * l.length := by
  intro l
  induction l with
  | nil => simp
  | cons x rest ih =>
    rw [List.flatMap_cons, List.countP_append, h, ih, List.length_cons,
      Nat.mul_succ]
    omega

/-- C4 (amended): during a bulk run, no existing-assignment-listing call
is made when `override_existing` is true; when it is false, exactly one
listing call is made per (app, group) pair — that is,
`len(app_ids) * len(group_ids)` listing calls in total, not one per
distinct app. -/
theorem bulk_assign_apps_listing_calls (client : GraphClient)
    (app_ids group_ids : List String) (intent : String)
    (notify restart_required : Bool) :
    ((bulk_assign_apps client app_ids group_ids intent notify restart_required
        true).calls.countP RemoteCall.isListing = 0) ∧
    ((bulk_assign_apps client app_ids group_ids intent notify restart_required
        false).calls.countP RemoteCall.isListing
      = app_ids.length * group_ids.length) := by
  constructor
  · rw [bulk_spec]
    show ((crossPairs app_ids group_ids).flatMap
        (pairCalls client intent notify restart_required true)).countP
        RemoteCall.isListing = 0
    rw [countP_flatMap_const _ _ 0
      (fun p => (pairCalls_listing_count client intent notify
        restart_required p).1)]
    simp
  · rw [bulk_spec]
    show ((crossPairs app_ids group_ids).flatMap
        (pairCalls client intent notify restart_required false)).countP
        RemoteCall.isListing = _
    rw [countP_flatMap_const _ _ 1
      (fun p => (pairCalls_listing_count client intent notify
        restart_required p).2), crossPairs_length]
    omega

/-- A client on which every remote call succeeds and no app has existing
assignments. -/
def happyClient : GraphClient where
  get_app_assignments := fun _ => .ok []
  create_app_assignment := fun _ _ _ _ _ _ => .ok true

/-- Counterexample for C4 as stated: with one distinct app and two
groups and `override_existing = false`, the run makes two listing calls
— one per (app, group) pair — not exactly one per distinct app. -/
theorem bulk_listing_not_per_app :
    ((bulk_assign_apps happyClient ["A1"] ["G1", "G2"] "required" true false
        false).calls.countP RemoteCall.isListing = 2) ∧
    ¬ ((bulk_assign_apps happyClient ["A1"] ["G1", "G2"] "required" true false
        false).calls.countP RemoteCall.isListing = 1) := by
  constructor
  · decide
  · decide

/-- C6 (amended): when `override_existing` is false and listing the
app's existing assignments fails, `assign_app_to_group` propagates
exactly that error — it is never treated as "no existing assignments"
and no create call is issued for the pair; at the bulk level the error
is captured as that pair's failure and the batch still attempts every
pair of the cross-product. -/
theorem assign_fetch_failure_propagates (client : GraphClient)
    (app_id group_id intent : String) (notify restart_required : Bool)
    (e : String)
    (hfetch : client.get_app_assignments app_id = .error e) :
    assign_app_to_group client app_id group_id intent notify restart_required
        false
      = (.error e, [RemoteCall.listAssignments app_id]) ∧
    ∀ app_ids group_ids : List String,
      (bulk_assign_apps client app_ids group_ids intent notify
          restart_required false).attempts
        = crossPairs app_ids group_ids := by
  constructor
  · simp [assign_app_to_group, hfetch]
  · intro app_ids group_ids
    rw [bulk_spec]

/-- A client on which listing the assignments of app `"A1"` raises
`"boom"` while everything else succeeds. -/
def fetchFailClient : GraphClient where
  get_app_assignments := fun app_id =>
    if app_id = "A1" then .error "boom" else .ok []
  create_app_assignment := fun _ _ _ _ _ _ => .ok true

/-- Witness for the amended C6 at a concrete input. -/
theorem assign_fetch_failure_propagates_witness :
    assign_app_to_group fetchFailClient "A1" "G1" "required" true false false
      = (.error "boom", [RemoteCall.listAssignments "A1"]) ∧
    (bulk_assign_apps fetchFailClient ["A1", "A2"] ["G1"] "required" true
        false false).attempts
      = crossPairs ["A1", "A2"] ["G1"] := by
  have h := assign_fetch_failure_propagates fetchFailClient "A1" "G1"
    "required" true false "boom" rfl
  exact ⟨h.1, h.2 ["A1", "A2"] ["G1"]⟩

/-- Counterexample for C6 as stated: on a run where the dedup fetch for
the first pair fails, the batch is continued past the failure — the
second pair is still attempted and succeeds — instead of processing
stopping. -/
theorem bulk_fetch_failure_batch_continues :
    (bulk_assign_apps fetchFailClient ["A1", "A2"] ["G1"] "required" true
        false false).attempts
      = [("A1", "G1"), ("A2", "G1")] ∧
    (bulk_assign_apps fetchFailClient ["A1", "A2"] ["G1"] "required" true
        false false).result.failed = 1 ∧
    (bulk_assign_apps fetchFailClient ["A1", "A2"] ["G1"] "required" true
        false false).result.success = 1 ∧
    (bulk_assign_apps fetchFailClient ["A1", "A2"] ["G1"] "required" true
        false false).result.errors
      = [{ app_id := "A1", group_id := "G1", error := "boom" }] := by
  refine ⟨by decide, by decide, by decide, by decide⟩

/-- C5: when the selected group set or the selected app set is empty,
`apply_assignments` reports the validation error and returns with an
empty remote-call trace: no create-assignment or listing call is made
and execution does not proceed. -/
theorem apply_assignments_empty_selection (client : GraphClient)
    (selected_groups selected_apps : List String) (intent : String)
    (notify restart override : Bool)
    (h : selected_groups = [] ∨ selected_apps = []) :
    apply_assignments client selected_groups selected_apps intent notify
        restart override
      = (ApplyOutcome.validationError, []) := by
  rcases h with h | h <;> subst h <;> simp [apply_assignments]

/-- Witness for C5: empty group selection with one app selected. -/
theorem apply_assignments_empty_selection_witness :
    apply_assignments happyClient [] ["A1"] "required" true false true
      = (ApplyOutcome.validationError, []) :=
  apply_assignments_empty_selection happyClient [] ["A1"] "required" true
    false true (Or.inl rfl)

theorem toggle_toggle_eq (s : Finset String) (g : String) :
    toggle_group_selection (toggle_group_selection s g) g = s := by
  by_cases h : g ∈ s
  · rw [show toggle_group_selection s g = s.erase g from if_pos h,
      toggle_group_selection, if_neg (Finset.not_mem_erase g s),
      Finset.insert_erase h]
  · rw [show toggle_group_selection s g = insert g s from if_neg h,
      toggle_group_selection, if_pos (Finset.mem_insert_self g s),
      Finset.erase_insert h]

/-- C7: toggling any group id twice returns the selected-group set to
its prior value; in particular toggling `"G1"` twice from the empty
selection leaves it empty, with a displayed plan count of `0` whatever
the app selection. -/
theorem toggle_group_selection_involution (s : Finset String) (g : String)
    (selected_apps : Finset String) :
    toggle_group_selection (toggle_group_selection s g) g = s ∧
    toggle_group_selection (toggle_group_selection ∅ "G1") "G1" = ∅ ∧
    update_summary_count
        (toggle_group_selection (toggle_group_selection ∅ "G1") "G1")
        selected_apps
      = 0 := by
  refine ⟨toggle_toggle_eq s g, toggle_toggle_eq ∅ "G1", ?_⟩
  rw [toggle_toggle_eq ∅ "G1"]
  simp [update_summary_count]

/-- C8: the displayed plan count is `|groups| * |apps|`, and with
`override_existing = true` it equals both the number of pairs the bulk
run attempts and the run's reported `total`, for any selection sets
(given as duplicate-free lists) and any client behaviour. -/
theorem plan_count_consistency (client : GraphClient)
    (group_list app_list : List String) (intent : String)
    (notify restart_required : Bool)
    (hg : group_list.Nodup) (ha : app_list.Nodup) :
    update_summary_count group_list.toFinset app_list.toFinset
      = group_list.length * app_list.length ∧
    (bulk_assign_apps client app_list group_list intent notify
        restart_required true).attempts.length
      = update_summary_count group_list.toFinset app_list.toFinset ∧
    (bulk_assign_apps client app_list group_list intent notify
        restart_required true).result.total
      = update_summary_count group_list.toFinset app_list.toFinset := by
  have h1 : update_summary_count group_list.toFinset app_list.toFinset
      = group_list.length * app_list.length := by
    rw [update_summary_count, List.toFinset_card_of_nodup hg,
      List.toFinset_card_of_nodup ha]
  refine ⟨h1, ?_, ?_⟩
  · rw [bulk_spec]
    show (crossPairs app_list group_list).length = _
    rw [crossPairs_length, h1]
    ring
  · rw [bulk_spec]
    show app_list.length * group_list.length = _
    rw [h1]
    ring

/-- Witness for C8: one group, two apps, all calls succeeding. -/
theorem plan_count_consistency_witness :
    update_summary_count (["G1"] : List String).toFinset
        (["A1", "A2"] : List String).toFinset
      = (["G1"] : List String).length * (["A1", "A2"] : List String).length ∧
    (bulk_assign_apps happyClient ["A1", "A2"] ["G1"] "required" true false
        true).attempts.length
      = update_summary_count (["G1"] : List String).toFinset
          (["A1", "A2"] : List String).toFinset ∧
    (bulk_assign_apps happyClient ["A1", "A2"] ["G1"] "required" true false
        true).result.total
      = update_summary_count (["G1"] : List String).toFinset
          (["A1", "A2"] : List String).toFinset :=
  plan_count_consistency happyClient ["G1"] ["A1", "A2"] "required" true false
    (by decide) (by decide)

/-- The ids of the currently displayed group cards, in card order. -/
def visible_group_ids (cards : List GroupCard) : List String :=
  (cards.filter (fun card => card.display)).map (fun card => card.id)

theorem select_all_groups_eq_union (cards : List GroupCard) :
    ∀ s : Finset String,
      select_all_groups s cards = s ∪ (visible_group_ids cards).toFinset := by
  induction cards with
  | nil => intro s; simp [select_all_groups, visible_group_ids]
  | cons c rest ih =>
    intro s
    by_cases h : c.display
    · have hstep : select_all_groups s (c :: rest)
          = select_all_groups (insert c.id s) rest := by
        simp [select_all_groups, h]
      rw [hstep, ih]
      simp [visible_group_ids, List.filter_cons, h, Finset.insert_union,
        Finset.union_insert]
    · have hstep : select_all_groups s (c :: rest)
          = select_all_groups s rest := by
        simp [select_all_groups, h]
      rw [hstep, ih]
      simp [visible_group_ids, List.filter_cons, h]

/-- C9 (amended): `select_all_groups` unions the visible ids into the
selected set — previously selected ids stay selected even when their
cards are not visible — and `clear_groups` replaces the selection with
the empty set. -/
theorem select_all_union_clear_empty (s : Finset String)
    (cards : List GroupCard) :
    select_all_groups s cards = s ∪ (visible_group_ids cards).toFinset ∧
    clear_groups s = ∅ :=
  ⟨select_all_groups_eq_union cards s, rfl⟩

/-- Counterexample for C9 as stated: starting from selection
`{"G2"}` with one visible card `"G1"`, select-all yields
`{"G1", "G2"}`, not the visible set `{"G1"}`: the previously selected
id outside the visible ids is still selected. -/
theorem select_all_groups_not_replacement :
    select_all_groups {"G2"} [{ id := "G1", display := true }]
      = ({"G1", "G2"} : Finset String) ∧
    ¬ (select_all_groups {"G2"} [{ id := "G1", display := true }]
      = ({"G1"} : Finset String)) := by
  refine ⟨by decide, by decide⟩
